import Mathlib

/-!
Verification of the Redis-backed datastore (`mlrun/datastore/redis.py`).

Logical keys, physical keys and stored values are modelled as `List Char`
(the Python code works on `str` throughout, `decode_responses=True`).
The Redis backend state is an association list from physical keys to
values; the Redis commands used by the store (SET, APPEND, GETRANGE,
DEL, SCAN with a MATCH pattern) are modelled after their documented
server semantics.
-/

abbrev Bytes := List Char

/-- Python `key.startswith(pre)` on character lists. -/
def pyStartsWith (key pre : Bytes) : Bool :=
  match pre, key with
  | [], _ => true
  | _ :: _, [] => false
  | p :: ps, c :: cs => p = c && pyStartsWith cs ps

/-- Python `key.find(c, start)`: index of the first occurrence of `c`
at or after `start`, `-1` when there is none. -/
def pyFindFrom (key : Bytes) (c : Char) (start : Nat) : Int :=
  match (key.drop start).findIdx? (fun ch => ch = c) with
  | some i => ((start + i : Nat) : Int)
  | none => -1

/-- Python `key[i:]` with a possibly negative index `i`
(`max (len + i) 0` is the effective start for `i < 0`). -/
def pySliceFrom (key : Bytes) (i : Int) : Bytes :=
  if 0 ≤ i then key.drop i.toNat
  else key.drop (key.length - (-i).toNat)

/-- The scheme prefixes recognised by `RedisStore.build_redis_key`. -/
def redisPrefixes : List Bytes :=
  [('r' :: 'e' :: 'd' :: 'i' :: 's' :: ':' :: '/' :: '/' :: []),
   ('r' :: 'e' :: 'd' :: 'i' :: 's' :: 's' :: ':' :: '/' :: '/' :: []),
   ('d' :: 's' :: ':' :: '/' :: '/' :: [])]

/-- Python `next((len(prefix) for prefix in prefixes if key.startswith(prefix)), 0)`:
length of the first recognised scheme prefix of the key, `0` if none. -/
def schemeStart (key : Bytes) : Nat :=
  match redisPrefixes.find? (fun p => pyStartsWith key p) with
  | some p => p.length
  | none => 0

namespace RedisStore

/-- The classmethod `RedisStore.build_redis_key(key, prefix_only)`: skip any recognised
scheme prefix, find the first `/` from there (skipping user/pass, host,
port), prepend `{` to the slice from that position, and close with `}`
unless `prefix_only` is set. -/
def build_redis_key (key : Bytes) ( prefix_only : Bool) : Bytes :=
  let start := schemeStart key
  let idx := pyFindFrom key '/' start
  let k := '{' :: pySliceFrom key idx
  if prefix_only then k else k ++ ['}']

/-- The classmethod `RedisStore.build_mlrun_key(key)`: Python `key[1:-1]`. -/
def build_mlrun_key (key : Bytes) : Bytes :=
  (key.drop 1).dropLast

end RedisStore

/-- Claim-side definition, following the claim wording: the path tail of a
logical key is the substring from the first `/` after any scheme/host/port
preamble onward (empty when no such `/` exists). -/
def specPathTailOf (key : Bytes) : Bytes :=
  let idx := pyFindFrom key '/' (schemeStart key)
  if 0 ≤ idx then key.drop idx.toNat else []

/- ### Backend state model -/

/-- The errors raised by this store: `MLRunInvalidArgumentError` and
`NotImplementedError`. -/
inductive MLRunError where
  | invalidArgument
  | notImplemented
deriving DecidableEq

/-- The Redis key space: an association list physical key to value. -/
abbrev RedisState := List (Bytes × Bytes)

/-- First value bound to `key`, if any (Redis GET semantics modulo
existence). -/
def lookupKV : RedisState → Bytes → Option Bytes
  | [], _ => none
  | (k, v) :: rest, key => if k = key then some v else lookupKV rest key

/-- Redis SET: overwrite the value unconditionally, creating the key if
absent. -/
def setKV : RedisState → Bytes → Bytes → RedisState
  | [], key, val => [(key, val)]
  | (k, v) :: rest, key, val =>
    if k = key then (key, val) :: rest else (k, v) :: setKV rest key val

/-- Redis APPEND: appends to the existing value, creating it if absent. -/
def appendKV (st : RedisState) (key val : Bytes) : RedisState :=
  setKV st key ((lookupKV st key).getD [] ++ val)

/-- Redis DEL of a single key (idempotent: absent keys are ignored). -/
def delKV (st : RedisState) (key : Bytes) : RedisState :=
  st.filter (fun kv => decide (kv.1 ≠ key))

/-- Step-indexed core of Redis glob-style MATCH (literal characters,
`?`, and `*`). Every recursive call shrinks `pattern.length + s.length`,
so `globMatch` below supplies fuel that can never run out. -/
def globMatchFuel : Nat → Bytes → Bytes → Bool
  | _, [], [] => true
  | _, [], _ :: _ => false
  | 0, _ :: _, _ => false
  | n + 1, '*' :: ps, [] => globMatchFuel n ps []
  | n + 1, '*' :: ps, c :: cs =>
    globMatchFuel n ps (c :: cs) || globMatchFuel n ('*' :: ps) cs
  | n + 1, '?' :: ps, _ :: cs => globMatchFuel n ps cs
  | _, _ :: _, [] => false
  | n + 1, p :: ps, c :: cs => p = c && globMatchFuel n ps cs

/-- Redis glob-style MATCH for the patterns this store builds. -/
def globMatch (pat s : Bytes) : Bool :=
  globMatchFuel (pat.length + s.length) pat s

/-- Redis `scan_iter(pattern)` fully drained: every stored key matching the
pattern, in store order. -/
def scanKeys (st : RedisState) (pat : Bytes) : List Bytes :=
  (st.filter (fun kv => globMatch pat kv.1)).map Prod.fst

/-- Scan-and-delete: remove every stored key matching the pattern. -/
def delMatching (st : RedisState) (pat : Bytes) : RedisState :=
  st.filter (fun kv => !globMatch pat kv.1)

/-- Redis GETRANGE on a value, with the server's index-clamping
semantics (negative indices count from the end; the range is inclusive;
out-of-range requests are truncated; a missing key reads as `[]` at the
call site). -/
def getrange (v : Bytes) (start0 end0 : Int) : Bytes :=
  let strlen : Int := v.length
  let s1 : Int := if start0 < 0 then strlen + start0 else start0
  let e1 : Int := if end0 < 0 then strlen + end0 else end0
  let s2 : Int := if s1 < 0 then 0 else s1
  let e2 : Int := if e1 < 0 then 0 else e1
  let e3 : Int := if strlen ≤ e2 then strlen - 1 else e2
  if strlen = 0 ∨ e3 < s2 then []
  else (v.take (e3.toNat + 1)).drop s2.toNat

/-- The value GETRANGE reads from: the stored value of the physical key,
empty when absent. -/
def storedVal (st : RedisState) (key : Bytes) : Bytes :=
  (lookupKV st (RedisStore.build_redis_key key false)).getD []

instance {ε α : Type} [DecidableEq ε] [DecidableEq α] :
    DecidableEq (Except ε α) := fun x y =>
  match x, y with
  | .ok a, .ok b =>
    if h : a = b then isTrue (congrArg Except.ok h)
    else isFalse (fun hx => h (Except.ok.inj hx))
  | .ok _, .error _ => isFalse (fun hx => Except.noConfusion hx)
  | .error _, .ok _ => isFalse (fun hx => Except.noConfusion hx)
  | .error e, .error f =>
    if h : e = f then isTrue (congrArg Except.error h)
    else isFalse (fun hx => h (Except.error.inj hx))

/- ### Store operations -/

namespace RedisStore

/-- The method `RedisStore.put(key, data, append)`. -/
def put (st : RedisState) (key data : Bytes) (append : Bool) : RedisState :=
  let k := build_redis_key key false
  if append then appendKV st k data else setKV st k data

/-- The method `RedisStore.get(key, size, offset)`. -/
def get (st : RedisState) (key : Bytes) (size : Option Int) (offset : Int) :
    Except MLRunError Bytes :=
  let k := build_redis_key key false
  if offset < 0 then .error .invalidArgument
  else
    match size with
    | none => .ok (getrange ((lookupKV st k).getD []) offset (-1))
    | some s =>
      if s ≤ 0 then .error .invalidArgument
      else .ok (getrange ((lookupKV st k).getD []) offset (offset + s - 1))

/-- The method `RedisStore.stat(key)`: always `NotImplementedError`. -/
def stat (_key : Bytes) : Except MLRunError Unit :=
  .error .notImplemented

/-- The method `RedisStore.listdir(key)`: prefix-only encoding, wildcard suffix,
scan, decode each hit. -/
def listdir (st : RedisState) (key : Bytes) : List Bytes :=
  let k := build_redis_key key true
  let pat := k ++ (if k.getLast? = some '/' then ['*'] else ['/', '*'])
  (scanKeys st pat).map build_mlrun_key

/-- The method `RedisStore.rm(key, recursive, maxdepth)`: `maxdepth` unsupported;
non-recursive deletes the one terminated key; recursive scan-and-deletes
the wildcard pattern, then the same pattern under the auxiliary
`_spark:` namespace. -/
def rm (st : RedisState) (key : Bytes) (recursive : Bool)
    (maxdepth : Option Nat) : Except MLRunError RedisState :=
  if maxdepth.isSome then .error .notImplemented
  else
    let k := build_redis_key key recursive
    if recursive then
      let pat := k ++ (if k.getLast? = some '/' then ['*'] else ['/', '*'])
      let st1 := delMatching st pat
      let pat2 := ('_' :: 's' :: 'p' :: 'a' :: 'r' :: 'k' :: ':' :: []) ++ pat
      .ok (delMatching st1 pat2)
    else .ok (delKV st k)

/-- The chunk loop of `RedisStore.upload`: `f.read(1000*1000)` until empty,
appending each chunk to the value. -/
def uploadLoop (st : RedisState) (k : Bytes) (contents : Bytes) : RedisState :=
  if h : contents = [] then st
  else uploadLoop (appendKV st k (contents.take 1000000)) k (contents.drop 1000000)
termination_by contents.length
decreasing_by
  simp only [List.length_drop]
  have : 0 < contents.length := List.length_pos.mpr h
  omega

/-- The method `RedisStore.upload(key, src_path)`, with the source file's contents
given as the byte sequence the chunked reads return in order. -/
def upload (st : RedisState) (key contents : Bytes) : RedisState :=
  uploadLoop st (build_redis_key key false) contents

/- ### Connection accessor model -/

/-- A live backend client handle: cluster-mode or single-node, built
from the connection URL. -/
inductive Handle where
  | cluster (url : Bytes)
  | single (url : Bytes)
deriving DecidableEq

/-- Outcome of `redis.cluster.RedisCluster.from_url`: either a handle,
the `RedisClusterException` (the recognised not-a-cluster condition the
accessor catches), or any other error (a backend error code). -/
inductive ClusterCtorError where
  | redisClusterException
  | other (e : Nat)
deriving DecidableEq

/-- What the two client constructors would return if invoked: the
environment of one call to the accessor. -/
structure CtorEnv where
  clusterCtor : Except ClusterCtorError Handle
  singleCtor : Except Nat Handle

/-- Which constructors a call to the accessor actually invoked. -/
inductive CtorAttempt where
  | clusterCtor
  | singleCtor
deriving DecidableEq

/-- The `RedisStore.redis` property: `cached` is `self._redis`. If a
handle is cached it is returned as is; otherwise the cluster constructor
runs, `RedisClusterException` (and only it) triggers the single-node
constructor, and any other error propagates unchanged. Returns the new
cache and the handle (or the propagated error), plus the list of
constructors invoked. -/
def redis (env : CtorEnv) (cached : Option Handle) :
    Except Nat (Option Handle × Handle) × List CtorAttempt :=
  match cached with
  | some h => (.ok (some h, h), [])
  | none =>
    match env.clusterCtor with
    | .ok h => (.ok (some h, h), [.clusterCtor])
    | .error .redisClusterException =>
      (match env.singleCtor with
       | .ok h => .ok (some h, h)
       | .error e => .error e, [.clusterCtor, .singleCtor])
    | .error (.other e) => (.error e, [.clusterCtor])

end RedisStore

/- ### Concrete scenario states -/

/-- The store after `put("a/x","1")`, `put("a/y","2")`, `put("b/z","3")`
(all with `append=False`), starting from an empty key space. -/
def st3 : RedisState :=
  RedisStore.put
    (RedisStore.put
      (RedisStore.put [] ('a' :: '/' :: 'x' :: []) ('1' :: []) false)
      ('a' :: '/' :: 'y' :: []) ('2' :: []) false)
    ('b' :: '/' :: 'z' :: []) ('3' :: []) false

/-- A store holding the value `v0` under the logical key `k/x`. -/
def stV0 : RedisState :=
  RedisStore.put [] ('k' :: '/' :: 'x' :: []) ('v' :: '0' :: []) false

/- ### Helper lemmas -/

/-- SET then GET on the same key yields the value just written. -/
theorem lookupKV_setKV_self (st : RedisState) (k v : Bytes) :
    lookupKV (setKV st k v) k = some v := by
  induction st with
  | nil => simp [setKV, lookupKV]
  | cons kv rest ih =>
    obtain ⟨k0, v0⟩ := kv
    by_cases h : k0 = k
    · simp [setKV, lookupKV, h]
    · simp [setKV, lookupKV, h, ih]

/-- GETRANGE with start 0 and end -1 returns the whole value. -/
theorem getrange_all (v : Bytes) : getrange v 0 (-1) = v := by
  unfold getrange
  by_cases h : v.length = 0
  · have hv : v = [] := List.length_eq_zero.mp h
    subst hv
    simp
  · have hv : 0 < v.length := Nat.pos_of_ne_zero h
    have h0 : ¬ ((0 : Int) < 0) := by omega
    have h1 : ((-1 : Int)) < 0 := by omega
    have h2 : ¬ ((v.length : Int) + -1 < 0) := by omega
    have h3 : ¬ ((v.length : Int) ≤ (v.length : Int) + -1) := by omega
    have h4 : ¬ ((v.length : Int) = 0) := by omega
    simp only [h0, if_false, h1, if_true, if_neg h2, if_neg h0, if_neg h3, if_neg h4]
    have h6 : (((v.length : Int) + -1).toNat + 1) = v.length := by omega
    rw [if_neg]
    · simp [h6, Int.toNat_zero]
    · push_neg
      exact ⟨h4, by omega⟩

/-- Index of the separating slash in `s ++ '/' :: t` when `s` itself is
slash-free. -/
theorem findIdx_slash_append (s t : Bytes) (hs : '/' ∉ s) :
    (s ++ '/' :: t).findIdx? (fun ch => ch = '/') = some s.length := by
  induction s with
  | nil => simp [List.findIdx?_cons]
  | cons a s ih =>
    have ha : a ≠ '/' := fun h => hs (h ▸ List.mem_cons_self a s)
    have hs' : '/' ∉ s := fun h => hs (List.mem_cons_of_mem a h)
    simp [List.findIdx?_cons, ha, ih hs']

/-- Shape of the physical key of a scheme-less key whose first segment
holds no slash: the segment is dropped entirely. -/
theorem build_redis_key_append (s t : Bytes) (pf : Bool)
    (h : schemeStart (s ++ '/' :: t) = 0) (hs : '/' ∉ s) :
    RedisStore.build_redis_key (s ++ '/' :: t) pf =
      if pf then '{' :: '/' :: t else '{' :: '/' :: t ++ ['}'] := by
  unfold RedisStore.build_redis_key pyFindFrom pySliceFrom
  rw [h]
  simp only [List.drop_zero, findIdx_slash_append s t hs]
  have h1 : (0 : Int) ≤ ((0 + s.length : Nat) : Int) := by positivity
  rw [if_pos h1]
  have h2 : (((0 + s.length : Nat) : Int)).toNat = s.length := by omega
  rw [h2]
  rw [List.drop_left]

/-- The value the chunk loop leaves under its key: the previous
effective value with the whole contents appended (the state is untouched
when the contents are empty). -/
theorem lookupKV_uploadLoop (k : Bytes) :
    ∀ n, ∀ c : Bytes, c.length ≤ n → ∀ st : RedisState,
      lookupKV (RedisStore.uploadLoop st k c) k =
        if c = [] then lookupKV st k
        else some ((lookupKV st k).getD [] ++ c) := by
  intro n
  induction n with
  | zero =>
    intro c hc st
    have hcnil : c = [] := List.length_eq_zero.mp (Nat.le_zero.mp hc)
    subst hcnil
    rw [RedisStore.uploadLoop]
    simp
  | succ n ih =>
    intro c hc st
    by_cases h : c = []
    · subst h
      rw [RedisStore.uploadLoop]
      simp
    · rw [RedisStore.uploadLoop]
      rw [dif_neg h, if_neg h]
      have hlen : (c.drop 1000000).length ≤ n := by
        have hpos : 0 < c.length := List.length_pos.mpr h
        simp only [List.length_drop]
        omega
      rw [ih (c.drop 1000000) hlen]
      have hsplit : c.take 1000000 ++ c.drop 1000000 = c := List.take_append_drop _ c
      by_cases hd : c.drop 1000000 = []
      · have hc_take : c.take 1000000 = c := by
          conv_rhs => rw [← hsplit]
          rw [hd, List.append_nil]
        simp [hd, appendKV, lookupKV_setKV_self, hc_take]
      · rw [if_neg hd]
        simp [appendKV, lookupKV_setKV_self, hsplit]

/- ### Claims -/

/-- C1 (amended): for every logical key containing a `/` at or after the
scheme-prefix boundary, decoding the physical key produced by encoding
with `prefix_only=false` recovers exactly the path tail of the key. -/
theorem C1_roundtrip_path_tail (key : Bytes)
    (h : 0 ≤ pyFindFrom key '/' (schemeStart key)) :
    RedisStore.build_mlrun_key (RedisStore.build_redis_key key false) =
      specPathTailOf key := by
  simp only [RedisStore.build_redis_key, RedisStore.build_mlrun_key, specPathTailOf,
    pySliceFrom, if_pos h, Bool.false_eq_true, if_false, List.cons_append,
    List.drop_succ_cons, List.drop_zero]
  exact List.dropLast_concat

theorem C1_witness :
    0 ≤ pyFindFrom ('r' :: 'e' :: 'd' :: 'i' :: 's' :: ':' :: '/' :: '/' :: 'h' :: ':' :: '1' :: '/' :: 'a' :: '/' :: 'x' :: []) '/'
        (schemeStart ('r' :: 'e' :: 'd' :: 'i' :: 's' :: ':' :: '/' :: '/' :: 'h' :: ':' :: '1' :: '/' :: 'a' :: '/' :: 'x' :: [])) ∧
    RedisStore.build_mlrun_key (RedisStore.build_redis_key ('r' :: 'e' :: 'd' :: 'i' :: 's' :: ':' :: '/' :: '/' :: 'h' :: ':' :: '1' :: '/' :: 'a' :: '/' :: 'x' :: []) false) =
      specPathTailOf ('r' :: 'e' :: 'd' :: 'i' :: 's' :: ':' :: '/' :: '/' :: 'h' :: ':' :: '1' :: '/' :: 'a' :: '/' :: 'x' :: []) :=
  ⟨by decide, C1_roundtrip_path_tail _ (by decide)⟩

/-- C1 counterexample: on a key with no `/` at all the decode of the
encode is the key's last character, not its (empty) path tail. -/
theorem C1_counterexample :
    RedisStore.build_mlrun_key (RedisStore.build_redis_key ('a' :: 'b' :: 'c' :: []) false) ≠
      specPathTailOf ('a' :: 'b' :: 'c' :: []) := by decide

/-- C2 counterexample: with `a/x`, `a/y`, `b/z` stored, `listdir("a/")`
is not (a permutation of) `{a/x, a/y}` - it returns the decoded path
tails `/x`, `/y`, `/z`, the key stored under `b/` included. -/
theorem C2_counterexample :
    ¬ List.Perm (RedisStore.listdir st3 ('a' :: '/' :: []))
      [('a' :: '/' :: 'x' :: []), ('a' :: '/' :: 'y' :: [])] := by decide

/-- C2 (amended): after storing values under `a/x`, `a/y` and `b/z`,
`listdir("a/")` returns exactly `/x`, `/y`, `/z` - the path tails of all
three keys, the one under `b/` included, since encoding a bare key
discards everything before its first `/`. -/
theorem C2_listdir_collapses_first_segment :
    RedisStore.listdir st3 ('a' :: '/' :: []) =
      [('/' :: 'x' :: []), ('/' :: 'y' :: []), ('/' :: 'z' :: [])] := by decide

/-- C3 counterexample: recursive `rm("a/")` empties the whole collapsed
key space - the key stored under `b/z` held `3` before and holds nothing
afterwards, contradicting the frame part of the claim. -/
theorem C3_counterexample :
    RedisStore.rm st3 ('a' :: '/' :: []) true none = Except.ok ([] : RedisState) ∧
    lookupKV st3 (RedisStore.build_redis_key ('b' :: '/' :: 'z' :: []) false) =
      some ('3' :: []) ∧
    lookupKV ([] : RedisState)
      (RedisStore.build_redis_key ('b' :: '/' :: 'z' :: []) false) = none := by
  decide

/-- C3 (amended): `rm("a/", recursive=True)` followed by `listdir("a/")`
returns an empty collection, but the key under `b/` is deleted as well:
its physical key matches the collapsed wildcard pattern. -/
theorem C3_rm_recursive_deletes_sibling_prefix :
    (RedisStore.rm st3 ('a' :: '/' :: []) true none).toOption =
      some ([] : RedisState) ∧
    RedisStore.listdir ([] : RedisState) ('a' :: '/' :: []) = [] ∧
    lookupKV ([] : RedisState)
      (RedisStore.build_redis_key ('b' :: '/' :: 'z' :: []) false) = none := by
  decide

/-- C4: the encoder is not injective on bare logical keys: two keys with
no recognised scheme prefix that differ only in their slash-free first
segment encode to the same physical key, hence address the same stored
value. -/
theorem C4_encode_not_injective (s1 s2 t : Bytes) (pf : Bool)
    (h1 : schemeStart (s1 ++ '/' :: t) = 0) (h2 : schemeStart (s2 ++ '/' :: t) = 0)
    (hs1 : '/' ∉ s1) (hs2 : '/' ∉ s2) :
    RedisStore.build_redis_key (s1 ++ '/' :: t) pf =
      RedisStore.build_redis_key (s2 ++ '/' :: t) pf ∧
    ∀ st : RedisState,
      lookupKV st (RedisStore.build_redis_key (s1 ++ '/' :: t) false) =
        lookupKV st (RedisStore.build_redis_key (s2 ++ '/' :: t) false) := by
  constructor
  · rw [build_redis_key_append s1 t pf h1 hs1, build_redis_key_append s2 t pf h2 hs2]
  · intro st
    rw [build_redis_key_append s1 t false h1 hs1,
      build_redis_key_append s2 t false h2 hs2]

theorem C4_witness :
    RedisStore.build_redis_key (('a' :: []) ++ '/' :: ('x' :: [])) false =
      RedisStore.build_redis_key (('b' :: []) ++ '/' :: ('x' :: [])) false :=
  (C4_encode_not_injective ('a' :: []) ('b' :: []) ('x' :: []) false
    (by decide) (by decide) (by decide) (by decide)).1

/-- C5: `put(key, data, append=False)` followed by `get(key)` (size
omitted, offset 0) returns exactly `data`, for every key, data and prior
state. -/
theorem C5_put_then_get (st : RedisState) (key data : Bytes) :
    RedisStore.get (RedisStore.put st key data false) key none 0 = .ok data := by
  unfold RedisStore.get
  simp only [RedisStore.put, Bool.false_eq_true, if_false]
  rw [if_neg (by omega : ¬ ((0 : Int) < 0))]
  rw [lookupKV_setKV_self]
  simp [getrange_all]

/-- C6: `put(key, "a", append=False)`; `put(key, "b", append=True)`;
`get(key)` yields `"ab"`, for every key and prior state. -/
theorem C6_put_append_get (st : RedisState) (key : Bytes) :
    RedisStore.get
      (RedisStore.put (RedisStore.put st key ('a' :: []) false) key ('b' :: []) true)
      key none 0 = .ok ('a' :: 'b' :: []) := by
  unfold RedisStore.get
  simp only [RedisStore.put, appendKV, Bool.false_eq_true, if_false, if_true]
  rw [if_neg (by omega : ¬ ((0 : Int) < 0))]
  rw [lookupKV_setKV_self, lookupKV_setKV_self]
  simp [getrange_all]

/-- C7: `get` fails with invalid-argument exactly when `offset < 0` or an
explicit `size ≤ 0` is given; otherwise it issues a single range read
with inclusive end `offset + size - 1` (`-1`, i.e. to the end, when size
is omitted). -/
theorem C7_get_errors_and_range (st : RedisState) (key : Bytes)
    (size : Option Int) (offset : Int) :
    (RedisStore.get st key size offset = .error .invalidArgument ↔
      offset < 0 ∨ ∃ s, size = some s ∧ s ≤ 0) ∧
    (0 ≤ offset → size = none →
      RedisStore.get st key size offset = .ok (getrange (storedVal st key) offset (-1))) ∧
    (0 ≤ offset → ∀ s, size = some s → 0 < s →
      RedisStore.get st key size offset =
        .ok (getrange (storedVal st key) offset (offset + s - 1))) := by
  unfold RedisStore.get storedVal
  by_cases ho : offset < 0
  · simp [ho]
  · cases size with
    | none => simp [ho]
    | some s =>
      by_cases hs : s ≤ 0
      · simp [ho, hs]
      · simp [ho, hs]

theorem C7_witness :
    RedisStore.get ([] : RedisState) ('a' :: '/' :: 'x' :: []) (some 2) 0 =
      .ok (getrange (storedVal [] ('a' :: '/' :: 'x' :: [])) 0 (0 + 2 - 1)) ∧
    RedisStore.get ([] : RedisState) ('a' :: '/' :: 'x' :: []) (some 0) 0 =
      .error .invalidArgument ∧
    RedisStore.get ([] : RedisState) ('a' :: '/' :: 'x' :: []) none (-1) =
      .error .invalidArgument :=
  ⟨(C7_get_errors_and_range [] _ (some 2) 0).2.2 (by omega) 2 rfl (by omega),
   (C7_get_errors_and_range [] _ (some 0) 0).1.mpr (Or.inr ⟨0, rfl, le_rfl⟩),
   (C7_get_errors_and_range [] _ none (-1)).1.mpr (Or.inl (by omega))⟩

/-- C8: the connection accessor returns a cached handle without invoking
any constructor; on a cold cache it tries the cluster constructor first,
falls back to the single-node constructor exactly on
`RedisClusterException`, and propagates any other construction error
unchanged without a fallback attempt; a handle, once obtained, is
cached. -/
theorem C8_connection_fallback_and_cache (env : RedisStore.CtorEnv)
    (h : RedisStore.Handle) (e : Nat) :
    (∀ hc, RedisStore.redis env (some hc) = (.ok (some hc, hc), [])) ∧
    (env.clusterCtor = .ok h →
      RedisStore.redis env none = (.ok (some h, h), [.clusterCtor])) ∧
    (env.clusterCtor = .error (.other e) →
      RedisStore.redis env none = (.error e, [.clusterCtor])) ∧
    (env.clusterCtor = .error .redisClusterException → env.singleCtor = .ok h →
      RedisStore.redis env none = (.ok (some h, h), [.clusterCtor, .singleCtor])) := by
  refine ⟨fun hc => rfl, fun hcl => ?_, fun hcl => ?_, fun hcl hs => ?_⟩
  · simp [RedisStore.redis, hcl]
  · simp [RedisStore.redis, hcl]
  · simp [RedisStore.redis, hcl, hs]

theorem C8_witness :
    RedisStore.redis
      ⟨.error .redisClusterException, .ok (.single [])⟩ none =
      (.ok (some (.single []), .single []), [.clusterCtor, .singleCtor]) ∧
    RedisStore.redis
      ⟨.error (.other 7), .ok (.single [])⟩ none = (.error 7, [.clusterCtor]) ∧
    RedisStore.redis
      ⟨.error .redisClusterException, .ok (.single [])⟩ (some (.cluster [])) =
      (.ok (some (.cluster []), .cluster []), []) :=
  ⟨(C8_connection_fallback_and_cache ⟨.error .redisClusterException, .ok (.single [])⟩
      (.single []) 0).2.2.2 rfl rfl,
   (C8_connection_fallback_and_cache ⟨.error (.other 7), .ok (.single [])⟩
      (.single []) 7).2.2.1 rfl,
   (C8_connection_fallback_and_cache ⟨.error .redisClusterException, .ok (.single [])⟩
      (.single []) 0).1 (.cluster [])⟩

/-- C9: `stat` always fails with not-implemented, and `rm` with any
non-null `maxdepth` fails with not-implemented before touching the
store, whatever the recursive flag. -/
theorem C9_stat_rm_not_implemented (key : Bytes) (st : RedisState)
    (recursive : Bool) (d : Nat) :
    RedisStore.stat key = .error .notImplemented ∧
    RedisStore.rm st key recursive (some d) = .error .notImplemented :=
  ⟨rfl, rfl⟩

/-- C10: `upload` never clears the destination: on a key holding `v` it
leaves `v` followed by the file contents; only on an absent key does it
leave exactly the file contents. -/
theorem C10_upload_appends (st : RedisState) (key contents : Bytes) :
    (∀ v, lookupKV st (RedisStore.build_redis_key key false) = some v →
      lookupKV (RedisStore.upload st key contents)
        (RedisStore.build_redis_key key false) = some (v ++ contents)) ∧
    (lookupKV st (RedisStore.build_redis_key key false) = none →
      storedVal (RedisStore.upload st key contents) key = contents) := by
  constructor
  · intro v hv
    unfold RedisStore.upload
    rw [lookupKV_uploadLoop _ contents.length contents le_rfl]
    by_cases h : contents = []
    · simp [h, hv]
    · simp [h, hv]
  · intro hv
    unfold RedisStore.upload storedVal
    rw [lookupKV_uploadLoop _ contents.length contents le_rfl]
    by_cases h : contents = []
    · simp [h, hv]
    · simp [h, hv]

theorem C10_witness :
    lookupKV stV0 (RedisStore.build_redis_key ('k' :: '/' :: 'x' :: []) false) =
      some ('v' :: '0' :: []) ∧
    lookupKV (RedisStore.upload stV0 ('k' :: '/' :: 'x' :: []) ('h' :: 'i' :: []))
      (RedisStore.build_redis_key ('k' :: '/' :: 'x' :: []) false) =
      some ('v' :: '0' :: 'h' :: 'i' :: []) :=
  ⟨by decide,
   (C10_upload_appends stV0 ('k' :: '/' :: 'x' :: []) ('h' :: 'i' :: [])).1
     ('v' :: '0' :: []) (by decide)⟩
